import Mathlib

/-!
Verification of the JEEVibe IIDP adaptive-quiz engine
(`src/docs/engine/iidp_implementation_v4_CALIBRATED.py`).

Modelling conventions:
* Python floats are modelled as real numbers (`ℝ`) in the IRT kernel, where
  transcendental functions (`math.exp`, `math.sqrt`) occur, and as exact
  rationals (`ℚ`) in the quiz-composition layer, where only comparisons and
  field arithmetic on stored parameter values occur (every float value is a
  rational, and the code compares and sorts them exactly).
* Firestore reads are modelled by passing the data (question catalog, student
  profile, response log) as explicit arguments; Firestore writes (profile
  updates, event logs, quiz metadata) have no influence on the returned quiz
  and are modelled separately where a claim is about them.
* The response log is passed newest-first, matching the
  `order_by('answered_at', DESCENDING)` queries; each response carries
  `days_ago`, the integer number of days since it was answered
  (`(now - answered_at).days`).
* `random.choice` / `random.sample` are modelled by oracle functions supplied
  as arguments; an arbitrary oracle covers every choice the RNG can make.
* Python exceptions (KeyError, ZeroDivisionError) are modelled with `Option`.
-/

namespace IIDP

/-! ## Core IRT functions (source lines 188-261) -/

/-- Models `calculate_probability_3PL` (source lines 188-214): 3PL response
probability with overflow cutoffs at `|exponent| = 20` and a final clamp
to `[0, 1]`. -/
noncomputable def calculate_probability_3PL (theta difficulty_b discrimination_a guessing_c : ℝ) : ℝ :=
  if 20 < -discrimination_a * (theta - difficulty_b) then guessing_c
  else if -discrimination_a * (theta - difficulty_b) < -20 then 1
  else max 0 (min 1 (guessing_c
    + (1 - guessing_c) / (1 + Real.exp (-discrimination_a * (theta - difficulty_b)))))

/-- Models `calculate_fisher_information` (source lines 217-256). -/
noncomputable def calculate_fisher_information (theta difficulty_b discrimination_a guessing_c : ℝ) : ℝ :=
  let P := calculate_probability_3PL theta difficulty_b discrimination_a guessing_c
  let exponent := -discrimination_a * (theta - difficulty_b)
  if 20 < |exponent| then 0
  else
    let expVal := Real.exp exponent
    let Pprime := discrimination_a * (1 - guessing_c) * expVal / (1 + expVal) ^ 2
    if 0.01 < P ∧ P < 0.99 then
      discrimination_a ^ 2 * Pprime ^ 2 / (P * (1 - P))
    else 0

/-- Models `bound_theta` (source lines 259-261): clamp to `[-3, 3]`. -/
def bound_theta (theta : ℝ) : ℝ :=
  max (-3) (min 3 theta)

/-- Models `calculate_initial_SE` (source lines 326-346).  With `num_questions = 0`
the Python code computes `1.0 / math.sqrt(0)` which raises
`ZeroDivisionError`; this is modelled by returning `none`. -/
noncomputable def calculate_initial_SE (num_questions : ℕ) (accuracy : ℝ) : Option ℝ :=
  if num_questions = 0 then none
  else some (min 0.6 (max 0.1 (1 / Real.sqrt num_questions * (1 + |accuracy - 0.5|))))

/-! ## Theta update after a response (source lines 485-586, numeric core 526-560) -/

/-- Per-topic ability state (`TopicTheta`, source lines 25-33).  The
`percentile` field (`theta_to_percentile`, a scipy normal CDF) and the
`last_updated` timestamp are derived metadata not used by any claim and are
omitted. -/
structure TopicTheta where
  theta : ℝ
  confidence_SE : ℝ
  attempts : ℕ
  accuracy : Option ℝ

/-- The theta increment computed by `update_theta_after_response` (source
lines 529-536): `learning_rate * (1 - P)` on a correct answer and
`-learning_rate * P` on an incorrect one, with
`learning_rate = 0.3 / (1 + 0.02 * attempts)`. -/
noncomputable def thetaDelta (theta difficulty_b discrimination_a guessing_c : ℝ)
    (attempts : ℕ) (is_correct : Bool) : ℝ :=
  if is_correct then
    0.3 / (1 + 0.02 * (attempts : ℝ))
      * (1 - calculate_probability_3PL theta difficulty_b discrimination_a guessing_c)
  else
    -(0.3 / (1 + 0.02 * (attempts : ℝ))
      * calculate_probability_3PL theta difficulty_b discrimination_a guessing_c)

/-- The state transition of `update_theta_after_response` (source lines
526-560) on the topic's `TopicTheta` record, given the answered question's
IRT parameters.  The surrounding Firestore loads/stores and the response-log
append carry this state unchanged. -/
noncomputable def update_theta_after_response (t : TopicTheta)
    (difficulty_b discrimination_a guessing_c : ℝ) (is_correct : Bool) : TopicTheta where
  theta := bound_theta
    (t.theta + thetaDelta t.theta difficulty_b discrimination_a guessing_c t.attempts is_correct)
  confidence_SE := max 0.1 (t.confidence_SE * 0.95)
  attempts := t.attempts + 1
  accuracy :=
    match t.accuracy with
    | some old_accuracy =>
        some ((old_accuracy * t.attempts + (if is_correct then 1 else 0)) / (t.attempts + 1))
    | none => some (if is_correct then 1 else 0)

/-- One answered item of an update sequence: IRT parameters and correctness. -/
noncomputable def applyResponse (t : TopicTheta) (r : ℝ × ℝ × ℝ × Bool) : TopicTheta :=
  update_theta_after_response t r.1 r.2.1 r.2.2.1 r.2.2.2

/-- A sequence of `update_theta_after_response` calls on one topic. -/
noncomputable def applyResponses (t : TopicTheta) (rs : List (ℝ × ℝ × ℝ × Bool)) : TopicTheta :=
  rs.foldl applyResponse t

/-! ### Helper lemmas about the 3PL probability -/

lemma one_lt_one_add_exp (x : ℝ) : 1 < 1 + Real.exp x := by
  have h := Real.exp_pos x
  linarith

lemma logistic_pos {c : ℝ} (hc1 : c < 1) (x : ℝ) :
    0 < (1 - c) / (1 + Real.exp x) := by
  apply div_pos (by linarith)
  have h := Real.exp_pos x
  linarith

lemma logistic_lt {c : ℝ} (hc1 : c < 1) (x : ℝ) :
    (1 - c) / (1 + Real.exp x) < 1 - c :=
  div_lt_self (by linarith) (one_lt_one_add_exp x)

lemma logistic_anti {c : ℝ} (hc1 : c < 1) {x y : ℝ} (hxy : x ≤ y) :
    (1 - c) / (1 + Real.exp y) ≤ (1 - c) / (1 + Real.exp x) := by
  have hx := Real.exp_pos x
  have hmono := Real.exp_le_exp.mpr hxy
  apply div_le_div_of_nonneg_left (by linarith) (by linarith) (by linarith)

/-- In the non-cutoff branch the clamp `max 0 (min 1 ·)` is the identity. -/
lemma prob_eq_logistic {theta b a c : ℝ} (hc0 : 0 ≤ c) (hc1 : c < 1)
    (h1 : ¬ 20 < -a * (theta - b)) (h2 : ¬ -a * (theta - b) < -20) :
    calculate_probability_3PL theta b a c
      = c + (1 - c) / (1 + Real.exp (-a * (theta - b))) := by
  have hpos := logistic_pos hc1 (-a * (theta - b))
  have hlt := logistic_lt hc1 (-a * (theta - b))
  unfold calculate_probability_3PL
  simp only [if_neg h1, if_neg h2]
  rw [min_eq_right (by linarith), max_eq_right (by linarith)]

/-- Probability stays in `[c, 1]` (C9, first part). -/
lemma prob_mem {theta b a c : ℝ} (hc0 : 0 ≤ c) (hc1 : c < 1) :
    c ≤ calculate_probability_3PL theta b a c ∧ calculate_probability_3PL theta b a c ≤ 1 := by
  unfold calculate_probability_3PL
  split_ifs with h1 h2
  · exact ⟨le_refl c, le_of_lt hc1⟩
  · exact ⟨le_of_lt hc1, le_refl 1⟩
  · have hpos := logistic_pos hc1 (-a * (theta - b))
    have hlt := logistic_lt hc1 (-a * (theta - b))
    rw [min_eq_right (by linarith), max_eq_right (by linarith)]
    constructor <;> linarith

/-- Probability is (weakly) monotone in theta (C9, second part). -/
lemma prob_mono {b a c : ℝ} (ha : 0 < a) (hc0 : 0 ≤ c) (hc1 : c < 1)
    {theta theta' : ℝ} (h : theta ≤ theta') :
    calculate_probability_3PL theta b a c ≤ calculate_probability_3PL theta' b a c := by
  have hx : -a * (theta' - b) ≤ -a * (theta - b) := by nlinarith
  by_cases h1 : 20 < -a * (theta' - b)
  · -- both thetas are in the low cutoff: both sides equal c... actually the
    -- larger theta has the smaller exponent, so here the smaller theta's
    -- exponent is also above 20 and both probabilities are c.
    have h1' : 20 < -a * (theta - b) := lt_of_lt_of_le h1 hx
    unfold calculate_probability_3PL
    rw [if_pos h1, if_pos h1']
  · by_cases h1' : 20 < -a * (theta - b)
    · -- smaller theta in the low cutoff (value c), larger anywhere: use c ≤ P.
      have hle := (@prob_mem theta' b a c hc0 hc1).1
      unfold calculate_probability_3PL
      rw [if_pos h1', if_neg h1]
      unfold calculate_probability_3PL at hle
      rw [if_neg h1] at hle
      exact hle
    · by_cases h2' : -a * (theta - b) < -20
      · -- smaller theta in the high cutoff: then so is the larger one; both are 1.
        have h2 : -a * (theta' - b) < -20 := lt_of_le_of_lt hx h2'
        unfold calculate_probability_3PL
        rw [if_neg h1, if_pos h2, if_neg h1', if_pos h2']
      · by_cases h2 : -a * (theta' - b) < -20
        · -- larger theta in the high cutoff (value 1): use P ≤ 1.
          have hle := (@prob_mem theta b a c hc0 hc1).2
          unfold calculate_probability_3PL
          rw [if_neg h1, if_pos h2, if_neg h1', if_neg h2']
          unfold calculate_probability_3PL at hle
          rw [if_neg h1', if_neg h2'] at hle
          exact hle
        · -- both in the logistic branch.
          rw [prob_eq_logistic hc0 hc1 h1' h2', prob_eq_logistic hc0 hc1 h1 h2]
          have := logistic_anti hc1 hx
          linarith

/-- On an item harder than the current ability the success probability is
strictly below 1. -/
lemma prob_lt_one {theta b a c : ℝ} (ha : 0 < a) (hc0 : 0 ≤ c) (hc1 : c < 1)
    (hb : theta < b) : calculate_probability_3PL theta b a c < 1 := by
  have hxpos : 0 < -a * (theta - b) := by nlinarith
  by_cases h1 : 20 < -a * (theta - b)
  · unfold calculate_probability_3PL
    rw [if_pos h1]
    exact hc1
  · have h2 : ¬ -a * (theta - b) < -20 := by linarith
    rw [prob_eq_logistic hc0 hc1 h1 h2]
    have := logistic_lt hc1 (-a * (theta - b))
    linarith

/-- The success probability is strictly positive unless the low cutoff fires
with a zero guessing floor. -/
lemma prob_pos {theta b a c : ℝ} (hc0 : 0 ≤ c) (hc1 : c < 1)
    (h : -a * (theta - b) ≤ 20 ∨ 0 < c) :
    0 < calculate_probability_3PL theta b a c := by
  by_cases h1 : 20 < -a * (theta - b)
  · have hcpos : 0 < c := by
      rcases h with h | h
      · linarith
      · exact h
    unfold calculate_probability_3PL
    rw [if_pos h1]
    exact hcpos
  · by_cases h2 : -a * (theta - b) < -20
    · unfold calculate_probability_3PL
      rw [if_neg h1, if_pos h2]
      norm_num
    · rw [prob_eq_logistic hc0 hc1 h1 h2]
      have := logistic_pos hc1 (-a * (theta - b))
      linarith

lemma learning_rate_pos (n : ℕ) : 0 < (0.3 : ℝ) / (1 + 0.02 * (n : ℝ)) := by
  apply div_pos (by norm_num)
  positivity

lemma learning_rate_strict_anti (n : ℕ) :
    (0.3 : ℝ) / (1 + 0.02 * ((n : ℝ) + 1)) < 0.3 / (1 + 0.02 * (n : ℝ)) := by
  apply div_lt_div_of_pos_left (by norm_num) (by positivity)
  have : (0 : ℝ) ≤ (n : ℝ) := Nat.cast_nonneg n
  linarith

/-! ## Quiz-layer data model

Stored float parameters are modelled as exact rationals: the quiz layer only
compares, sorts and adds them.  The `Question` dataclass's `chapter`,
`subject`, `question_type`, `difficulty`, `priority` and `time_estimate`
fields are metadata never read by the quiz-generation pipeline and are
omitted; `StudentResponse` keeps the fields the pipeline reads
(`question_id`, `topic`, `is_correct`) plus `days_ago`, the integer
`(now - answered_at).days` standing in for the timestamp. -/

/-- A question document (source lines 35-46). -/
structure Question where
  question_id : String
  topic : String
  difficulty_b : ℚ
  discrimination_a : ℚ
  guessing_c : ℚ
deriving DecidableEq

/-- A logged response (source lines 48-62), newest-first in the log list. -/
structure StudentResponse where
  question_id : String
  topic : String
  is_correct : Bool
  days_ago : ℕ
deriving DecidableEq

/-- The student-profile fields read by `generate_daily_quiz`.
`theta_by_topic` maps topic → current theta (the only field of each
`TopicTheta` record the quiz layer reads). -/
structure StudentProfile where
  theta_by_topic : List (String × ℚ)
  topic_attempt_counts : List (String × ℕ)
  subject_balance : List (String × ℚ)
  completed_quiz_count : ℕ
deriving DecidableEq

/-- The RNG ports: `random.sample` over questions, `random.sample` over
topics, `random.choice` over review candidates (an index), and
`random.choice` inside the interleaver (an index per loop step).  An
arbitrary oracle covers every sequence of choices the RNG can make. -/
structure Rng where
  sampleQ : List Question → ℕ → List Question
  sampleT : List String → ℕ → List String
  choiceR : List StudentResponse → ℕ
  interleaveIdx : ℕ → ℕ

/-- Association-list read with default, modelling `dict.get(key, dflt)`. -/
def lookupRat (table : List (String × ℚ)) (t : String) (dflt : ℚ) : ℚ :=
  ((table.find? (fun p => p.1 == t)).map Prod.snd).getD dflt

/-- Association-list read with default for `ℕ`-valued tables. -/
def lookupNat (table : List (String × ℕ)) (t : String) (dflt : ℕ) : ℕ :=
  ((table.find? (fun p => p.1 == t)).map Prod.snd).getD dflt

/-- Models `JEE_TOPIC_WEIGHTS` (source lines 123-173); the trailing "add all 63
topics" ellipsis is a comment, the table has exactly these entries. -/
def JEE_TOPIC_WEIGHTS : List (String × ℚ) := [
  ("physics_mechanics_newtons_laws", 1.0),
  ("physics_mechanics_work_energy", 1.0),
  ("physics_mechanics_kinematics", 1.0),
  ("physics_mechanics_rotational", 1.0),
  ("physics_mechanics_gravitation", 0.6),
  ("physics_mechanics_shm", 0.6),
  ("physics_electrostatics_coulomb", 1.0),
  ("physics_current_electricity", 1.0),
  ("physics_magnetism_emi", 1.0),
  ("physics_ac_circuits", 0.6),
  ("physics_modern_photoelectric", 0.3),
  ("physics_modern_atoms", 0.3),
  ("chemistry_physical_thermodynamics", 1.0),
  ("chemistry_physical_equilibrium", 1.0),
  ("chemistry_physical_kinetics", 1.0),
  ("chemistry_physical_electrochemistry", 0.6),
  ("chemistry_organic_nomenclature", 0.6),
  ("chemistry_organic_reactions", 1.0),
  ("chemistry_organic_mechanisms", 0.6),
  ("chemistry_inorganic_coordination", 0.3),
  ("chemistry_inorganic_periodicity", 0.6),
  ("mathematics_calculus_limits", 1.0),
  ("mathematics_calculus_derivatives", 1.0),
  ("mathematics_calculus_integrals", 1.0),
  ("mathematics_calculus_differential_equations", 0.6),
  ("mathematics_algebra_quadratic", 0.6),
  ("mathematics_algebra_sequences", 0.6),
  ("mathematics_algebra_complex", 1.0),
  ("mathematics_coord_geom_circle", 1.0),
  ("mathematics_coord_geom_parabola", 0.6)]

/-- Models `TOPIC_PREREQUISITE_DEPTH` (source lines 176-182). -/
def TOPIC_PREREQUISITE_DEPTH : List (String × ℕ) := [
  ("physics_mechanics_kinematics", 0),
  ("physics_mechanics_newtons_laws", 1),
  ("physics_mechanics_work_energy", 2),
  ("physics_mechanics_rotational", 3)]

/-- Models `get_subject_from_topic` (source lines 470-479). -/
def get_subject_from_topic (topic : String) : String :=
  if topic.startsWith ("physics_") then ("physics")
  else if topic.startsWith ("chemistry_") then ("chemistry")
  else if topic.startsWith ("mathematics_") then ("mathematics")
  else ("unknown")

/-! ## Stable sorting

Python's `sorted` is stable; `reverse=True` sorts as if each comparison were
reversed, which is stable descending order.  Insertion sort below places each
element before the later-listed elements of equal key, i.e. is stable. -/

def insertAscBy {α : Type} (key : α → ℚ) (x : α) : List α → List α
  | [] => [x]
  | y :: ys => if key y < key x then y :: insertAscBy key x ys else x :: y :: ys

def stableSortAscBy {α : Type} (key : α → ℚ) : List α → List α
  | [] => []
  | x :: xs => insertAscBy key x (stableSortAscBy key xs)

def stableSortDescBy {α : Type} (key : α → ℚ) (l : List α) : List α :=
  stableSortAscBy (fun a => -(key a)) l

/-! ## Circuit breaker (source lines 631-668) -/

/-- Count of consecutive incorrect answers from the newest entry, stopping at
the first correct one (source lines 659-665). -/
def consecutiveFailures : List StudentResponse → ℕ
  | [] => 0
  | r :: rest => if r.is_correct then 0 else consecutiveFailures rest + 1

/-- Models `check_circuit_breaker` (source lines 631-668): look at the newest 10
responses; with fewer than 5 responses do not trigger; otherwise trigger when
the consecutive-failure count from the newest reaches 5. -/
def check_circuit_breaker (responses : List StudentResponse) : Bool :=
  if (responses.take 10).length < 5 then false
  else decide (5 ≤ consecutiveFailures (responses.take 10))

/-! ## Quiz-generation helpers -/

/-- Models `get_recent_questions` (source lines 1063-1073): ids of questions
answered within the last `days` days (`answered_at ≥ now - days`). -/
def get_recent_questions (responses : List StudentResponse) (days : ℕ) : List String :=
  (responses.filter (fun r => decide (r.days_ago ≤ days))).map (fun r => r.question_id)

/-- Models `select_questions_by_difficulty_range` (source lines 766-806).  The
fallback issues a fresh topic query (unlike `select_optimal_question_IRT`,
which re-iterates a consumed stream).  `random.sample(candidates, k)` is the
supplied oracle applied to `(candidates, k)` with `k = min count len`. -/
def select_questions_by_difficulty_range (catalog : List Question) (topic : String)
    (difficulty_min difficulty_max : ℚ) (count : ℕ) (recent_questions : List String)
    (discrimination_min : ℚ) (sample : List Question → ℕ → List Question) : List Question :=
  let questions := catalog.filter (fun q =>
    q.topic == topic && decide (difficulty_min ≤ q.difficulty_b)
      && decide (q.difficulty_b ≤ difficulty_max))
  let candidates := questions.filter (fun q =>
    !(recent_questions.contains q.question_id)
      && decide (discrimination_min ≤ q.discrimination_a))
  let candidates :=
    if candidates.isEmpty then
      (catalog.filter (fun q => q.topic == topic)).filter
        (fun q => !(recent_questions.contains q.question_id))
    else candidates
  sample candidates (min count candidates.length)

/-- Models `get_previously_correct_question` (source lines 809-849): a correctly
answered response from 7-14 days ago on one of the given topics whose
question is not in the recent set; `random.choice` is the index oracle. -/
def get_previously_correct_question (responses : List StudentResponse)
    (recent_questions : List String) (from_topics : List String) (catalog : List Question)
    (choice : List StudentResponse → ℕ) : Option Question :=
  let candidates := responses.filter (fun r =>
    r.is_correct && decide (7 ≤ r.days_ago) && decide (r.days_ago ≤ 14)
      && from_topics.contains r.topic && !(recent_questions.contains r.question_id))
  match candidates with
  | [] => none
  | c :: cs =>
    let chosen := (c :: cs).getD (choice (c :: cs) % (cs.length + 1)) c
    catalog.find? (fun q => q.question_id == chosen.question_id)

/-! ## Topic interleaving (source lines 1237-1271) -/

/-- Index-based `random.choice` over a nonempty list. -/
def chooseMod (k : ℕ) : List String → String
  | [] => ("")
  | s :: rest => (s :: rest).get ⟨k % (rest.length + 1), Nat.mod_lt _ (Nat.succ_pos _)⟩

/-- Group questions by topic preserving first-seen topic order and
within-topic order, as Python's insertion-ordered dict does
(source lines 1243-1248). -/
def addToGroup : List (String × List Question) → Question → List (String × List Question)
  | [], q => [(q.topic, [q])]
  | (s, qs) :: gs, q =>
    if s = q.topic then (s, qs ++ [q]) :: gs
    else (s, qs) :: addToGroup gs q

def groupByTopic (questions : List Question) : List (String × List Question) :=
  questions.foldl addToGroup []

/-- Pop the head question of topic `t`, dropping the topic once empty.
Python keeps the emptied dict entry but removes the topic from
`remaining_topics`; since only `remaining_topics` is consulted afterwards,
removing the pair is equivalent. -/
def popTopic : List (String × List Question) → String → Option (Question × List (String × List Question))
  | [], _ => none
  | (s, qs) :: gs, t =>
    if s = t then
      match qs with
      | [] => none
      | q :: rest => some (q, if rest.isEmpty then gs else (s, rest) :: gs)
    else
      match popTopic gs t with
      | some (q, gs2) => some (q, (s, qs) :: gs2)
      | none => none

/-- The topics eligible at one loop step (source lines 1255-1263): those
different from the last emitted topic, falling back to all remaining ones
when that leaves nothing. -/
def availableTopics : List String → Option String → List String
  | remaining_topics, none => remaining_topics
  | remaining_topics, some t =>
    if (remaining_topics.filter (fun s => s != t)).isEmpty then remaining_topics
    else remaining_topics.filter (fun s => s != t)

/-- The interleaving loop (source lines 1251-1269).  The Python `while` loop
runs one iteration per question; `fuel` is initialised to the question count,
so the recursion mirrors it exactly.  The `none` branch of `popTopic` is
unreachable from well-formed groupings. -/
def interleaveGo (rng : ℕ → ℕ) : ℕ → List (String × List Question) → Option String → List Question
  | 0, _, _ => []
  | fuel + 1, groups, lastTopic =>
    if groups.isEmpty then []
    else
      match popTopic groups
          (chooseMod (rng (fuel + 1)) (availableTopics (groups.map Prod.fst) lastTopic)) with
      | some (q, groups2) => q :: interleaveGo rng fuel groups2 (some q.topic)
      | none => []

/-- Models `interleave_questions_by_topic` (source lines 1237-1271). -/
def interleave_questions_by_topic (rng : ℕ → ℕ) (questions : List Question) : List Question :=
  interleaveGo rng questions.length (groupByTopic questions) none

/-! ## Recovery quiz (source lines 671-763) -/

/-- Models `generate_recovery_quiz` (source lines 671-763): 2 easy-range questions
from each of the 4 weakest topics, 1 medium-range question from each of the
2 weakest, one previously-correct review question if available, truncated to
10 and interleaved.  Firestore writes (event log, metadata) do not affect the
returned list. -/
def generate_recovery_quiz (catalog : List Question) (student : StudentProfile)
    (responses : List StudentResponse) (rng : Rng) : List Question :=
  let recent_questions := get_recent_questions responses 30
  let weak_topics := (stableSortAscBy (fun p => p.2) student.theta_by_topic).take 5
  -- easy range RECOVERY_EASY_MIN = 0.4 to RECOVERY_EASY_MAX = 0.7, written as
  -- reduced fractions; likewise medium 0.8 to 1.1 below
  let easy := (weak_topics.take 4).foldl (fun acc p =>
    acc ++ select_questions_by_difficulty_range catalog p.1 (mkRat 2 5) (mkRat 7 10) 2
      recent_questions 1 rng.sampleQ) []
  let withMedium := (weak_topics.take 2).foldl (fun acc p =>
    acc ++ select_questions_by_difficulty_range catalog p.1 (mkRat 4 5) (mkRat 11 10) 1
      recent_questions 1 rng.sampleQ) easy
  let review := get_previously_correct_question responses recent_questions
    (weak_topics.map Prod.fst) catalog rng.choiceR
  let recovery_questions := withMedium ++ review.toList
  interleave_questions_by_topic rng.interleaveIdx (recovery_questions.take 10)

/-! ## Daily quiz helpers (source lines 1061-1234, 1274-1325) -/

/-- Models `get_unexplored_topics` (source lines 1076-1081). -/
def get_unexplored_topics (topic_attempts : List (String × ℕ)) (min_attempts : ℕ) : List String :=
  (JEE_TOPIC_WEIGHTS.map Prod.fst).filter (fun t =>
    decide (lookupNat topic_attempts t 0 < min_attempts)
      && decide ((0.6 : ℚ) ≤ lookupRat JEE_TOPIC_WEIGHTS t 0))

/-- Models `prioritize_exploration_topics` (source lines 1084-1115). -/
def prioritize_exploration_topics (unexplored_topics : List String)
    (subject_balance : List (String × ℚ)) : List String :=
  let scored_topics := unexplored_topics.map (fun t =>
    let weightage_score := lookupRat JEE_TOPIC_WEIGHTS t 0.5 / 1
    let prereq_depth := lookupNat TOPIC_PREREQUISITE_DEPTH t 1
    let prereq_score := 1 - (prereq_depth : ℚ) / 3
    let current_coverage := lookupRat subject_balance (get_subject_from_topic t) 0.33
    let balance_score := 1 - |current_coverage - 1/3|
    (t, weightage_score * 0.5 + prereq_score * 0.3 + balance_score * 0.2))
  (stableSortDescBy (fun p => p.2) scored_topics).map Prod.fst

/-- Models `rank_topics_by_weakness` (source lines 1118-1120).  The sort key is
`theta_by_topic[t]['theta']`; when some topic is missing Python raises
`KeyError` (keys are computed before sorting), modelled by `none`. -/
def rank_topics_by_weakness (topics : List String)
    (theta_by_topic : List (String × ℚ)) : Option (List String) :=
  if topics.all (fun t => (theta_by_topic.find? (fun p => p.1 == t)).isSome) then
    some (stableSortAscBy (fun t => lookupRat theta_by_topic t 0) topics)
  else none

/-- Models `days_since_last_attempt` (source lines 1156-1172): days since the newest
response on the topic, 999 when never attempted. -/
def days_since_last_attempt (responses : List StudentResponse) (topic : String) : ℕ :=
  match (responses.filter (fun r => r.topic == topic)).head? with
  | some r => r.days_ago
  | none => 999

/-- Models `rank_topics_by_priority_formula` (source lines 1123-1153).  Callers pass
topics drawn from `theta_by_topic`'s keys, so the lookup default is
unreachable. -/
def rank_topics_by_priority_formula (topics : List String)
    (theta_by_topic : List (String × ℚ)) (responses : List StudentResponse) : List String :=
  let scored_topics := topics.map (fun t =>
    let theta := lookupRat theta_by_topic t 0
    let weakness_score := 1 - (theta + 3) / 6
    let recency_score := min 1 ((days_since_last_attempt responses t : ℚ) / 7)
    let jee_weight := lookupRat JEE_TOPIC_WEIGHTS t 0.5
    (t, weakness_score * 0.6 + recency_score * 0.2 + jee_weight * 0.2))
  (stableSortDescBy (fun p => p.2) scored_topics).map Prod.fst

/-- The spaced-repetition priority bucket (source lines 1301-1313); `none`
means the response is skipped (`days_since < 1`). -/
def reviewPriorityOf (days_since : ℕ) : Option ℕ :=
  if 30 ≤ days_since then some 5
  else if 14 ≤ days_since then some 4
  else if 7 ≤ days_since then some 3
  else if 3 ≤ days_since then some 2
  else if 1 ≤ days_since then some 1
  else none

/-- Models `get_spaced_review_question` (source lines 1274-1325): among correct
responses on non-recent questions, pick the one maximising
`(priority, days_since)` lexicographically (Python `max` keeps the first
maximal element), then fetch its question document. -/
def get_spaced_review_question (responses : List StudentResponse)
    (recent_questions : List String) (catalog : List Question) : Option Question :=
  let reviewable := responses.filter (fun r =>
    r.is_correct && !(recent_questions.contains r.question_id))
  let scored := reviewable.filterMap (fun r =>
    (reviewPriorityOf r.days_ago).map (fun p => (r.question_id, p, r.days_ago)))
  match scored with
  | [] => none
  | s :: ss =>
    let best := ss.foldl (fun b x =>
      if decide (b.2.1 < x.2.1) || (b.2.1 == x.2.1 && decide (b.2.2 < x.2.2)) then x else b) s
    catalog.find? (fun q => q.question_id == best.1)

/-! ## IRT-optimal selection (source lines 1175-1234) -/

/-- Fisher information of a stored question at a stored target theta. -/
noncomputable def fisherRat (target_theta : ℚ) (q : Question) : ℝ :=
  calculate_fisher_information (target_theta : ℝ) (q.difficulty_b : ℝ)
    (q.discrimination_a : ℝ) (q.guessing_c : ℝ)

/-- Models `select_optimal_question_IRT` (source lines 1175-1234).  The strict pass
filters the topic's stream by recency, discrimination and the `|b - θ| ≤ 0.5`
window.  The relaxation pass (source lines 1215-1218) re-iterates
`questions_query`, but that Firestore stream generator was already consumed
by the first pass, so the relaxed list comprehension always sees an empty
stream.  Scoring takes the first Fisher-information maximiser (Python `max`
keeps the first maximal element). -/
noncomputable def select_optimal_question_IRT (catalog : List Question) (topic : String)
    (target_theta : ℚ) (recent_questions : List String) (discrimination_min : ℚ) :
    Option Question :=
  let questions_query := catalog.filter (fun q => q.topic == topic)
  -- OPTIMAL_DIFFICULTY_RANGE = 0.5, written as the reduced fraction 1/2
  let candidates := questions_query.filter (fun q =>
    !(recent_questions.contains q.question_id)
      && decide (discrimination_min ≤ q.discrimination_a)
      && decide (|q.difficulty_b - target_theta| ≤ mkRat 1 2))
  let consumed_stream : List Question := []
  let candidates :=
    if candidates.isEmpty then
      consumed_stream.filter (fun q => !(recent_questions.contains q.question_id))
    else candidates
  match candidates with
  | [] => none
  | c :: cs =>
    some (cs.foldl (fun best q =>
      if fisherRat target_theta best < fisherRat target_theta q then q else best) c)

/-! ## Daily quiz generation (source lines 878-1058) -/

/-- The theta the quiz layer reads for a topic
(`theta_by_topic[topic]['theta']`); used only where the key is known to be
present, so the default is unreachable. -/
def thetaOf (theta_by_topic : List (String × ℚ)) (t : String) : ℚ :=
  lookupRat theta_by_topic t 0

/-- Models `generate_daily_quiz` (source lines 878-1058).  Returns `none` where the
Python code raises (`KeyError` on a topic missing from `theta_by_topic`),
`some quiz` for the emitted quiz.  Profile writes (`completed_quiz_count`
increment, `learning_phase`, `phase_switched_at_quiz`) do not affect the
returned list and are modelled by `quizStepProfile` below. -/
noncomputable def generate_daily_quiz (catalog : List Question) (student : StudentProfile)
    (responses : List StudentResponse) (rng : Rng) (completed_quiz_count_arg : Option ℕ) :
    Option (List Question) :=
  let completed_quiz_count := completed_quiz_count_arg.getD student.completed_quiz_count
  if check_circuit_breaker responses then
    some (generate_recovery_quiz catalog student responses rng)
  else
    let theta_by_topic := student.theta_by_topic
    let topic_attempts := student.topic_attempt_counts
    let recent_questions_30d := get_recent_questions responses 30
    if completed_quiz_count < 14 then
      -- exploration phase (source lines 949-995)
      let ratioVal : ℚ := max (0.6 - completed_quiz_count * 0.04) 0.3
      let num_exploration := ((10 : ℚ) * ratioVal).floor.toNat
      let num_deliberate := 10 - num_exploration - 1
      let unexplored_topics := get_unexplored_topics topic_attempts 2
      let exploration_topics :=
        (prioritize_exploration_topics unexplored_topics student.subject_balance).take num_exploration
      let quiz1 := exploration_topics.foldl (fun acc t =>
        let target_difficulty :=
          if (theta_by_topic.find? (fun p => p.1 == t)).isNone
              || lookupNat topic_attempts t 0 == 0 then (0.9 : ℚ)
          else thetaOf theta_by_topic t
        acc ++ (select_optimal_question_IRT catalog t target_difficulty recent_questions_30d 1.4).toList) []
      let tested_topics := (topic_attempts.filter (fun p => decide (2 ≤ p.2))).map Prod.fst
      match rank_topics_by_weakness tested_topics theta_by_topic with
      | none => none
      | some weak_topics =>
        let quiz2 := (weak_topics.take num_deliberate).foldl (fun acc t =>
          acc ++ (select_optimal_question_IRT catalog t (thetaOf theta_by_topic t) recent_questions_30d 1.4).toList) quiz1
        let quiz3 := quiz2 ++ (get_spaced_review_question responses recent_questions_30d catalog).toList
        some ((interleave_questions_by_topic rng.interleaveIdx quiz3).take 10)
    else
      -- exploitation phase (source lines 1001-1035)
      let all_topics := theta_by_topic.map Prod.fst
      let ranked_topics := rank_topics_by_priority_formula all_topics theta_by_topic responses
      let weak_topics := ranked_topics.take 7
      let quiz1 := weak_topics.foldl (fun acc t =>
        acc ++ (select_optimal_question_IRT catalog t (thetaOf theta_by_topic t) recent_questions_30d 1.4).toList) []
      let strong_topics := ranked_topics.drop (ranked_topics.length - 5)
      let maintenance_topics := rng.sampleT strong_topics (min 2 strong_topics.length)
      match maintenance_topics.foldlM (fun acc t =>
          (theta_by_topic.find? (fun p => p.1 == t)).map (fun p =>
            acc ++ (select_optimal_question_IRT catalog t p.2 recent_questions_30d 1.0).toList)) quiz1 with
      | none => none
      | some quiz2 =>
        let quiz3 := quiz2 ++ (get_spaced_review_question responses recent_questions_30d catalog).toList
        some ((interleave_questions_by_topic rng.interleaveIdx quiz3).take 10)

/-! ## Phase controller and profile counters (source lines 897-941, 1051-1056) -/

/-- The learning phase chosen on the normal (non-recovery) path
(source lines 929-941), as a pure function of the completed-quiz count. -/
def learning_phase_of (completed_quiz_count : ℕ) : String :=
  if completed_quiz_count < 14 then ("exploration") else ("exploitation")

/-- The exploration ratio chosen on the normal path (source lines 929-941). -/
def exploration_ratio_of (completed_quiz_count : ℕ) : ℚ :=
  if completed_quiz_count < 14 then max (0.6 - completed_quiz_count * 0.04) 0.3 else 0

/-- The profile counters written by one `generate_daily_quiz` call
(source lines 905-941 and 1051-1056). -/
structure ProfileCounters where
  completed_quiz_count : ℕ
  phase_switched_at_quiz : Option ℕ
deriving DecidableEq

/-- One quiz generation's effect on the profile counters: every call
increments `completed_quiz_count`; only the normal path with count ≥ 14 and
`phase_switched_at_quiz` still unset writes `phase_switched_at_quiz`
(source lines 905-917 for the recovery path, 929-941 and 1051-1056 for the
normal path).  `breaker` records whether the circuit breaker fired. -/
def quizStepProfile (p : ProfileCounters) (breaker : Bool) : ProfileCounters :=
  if breaker then
    ⟨p.completed_quiz_count + 1, p.phase_switched_at_quiz⟩
  else if p.completed_quiz_count < 14 then
    ⟨p.completed_quiz_count + 1, p.phase_switched_at_quiz⟩
  else
    match p.phase_switched_at_quiz with
    | none => ⟨p.completed_quiz_count + 1, some p.completed_quiz_count⟩
    | some v => ⟨p.completed_quiz_count + 1, some v⟩

/-- A run of quiz generations: a list of circuit-breaker outcomes. -/
def runProfile (p : ProfileCounters) (run : List Bool) : ProfileCounters :=
  run.foldl quizStepProfile p

/-- The count of the first normal-path quiz generated with count ≥ 14, if
any: the value `phase_switched_at_quiz` ends up with. -/
def phaseSwitchSpec : ℕ → List Bool → Option ℕ
  | _, [] => none
  | q, b :: rest => if !b && decide (14 ≤ q) then some q else phaseSwitchSpec (q + 1) rest

/-! ## Proof-layer predicates for the interleaver -/

/-- Well-formedness of a topic grouping: every group is nonempty and holds
only questions of its key topic.  `groupByTopic` establishes this and every
`popTopic` step preserves it. -/
def GroupsWF (gs : List (String × List Question)) : Prop :=
  ∀ p ∈ gs, p.2 ≠ [] ∧ ∀ q ∈ p.2, q.topic = p.1

/-- The guarantee of the interleaving loop relative to the topic last
emitted: whenever the next question repeats the last topic, every question
after it also has that topic (the loop only repeats a topic when the
`available` reset fired, i.e. when nothing else was left). -/
def ChainOk : Option String → List Question → Prop
  | _, [] => True
  | lastTopic, q :: rest =>
      (lastTopic = some q.topic → ∀ r ∈ rest, r.topic = q.topic) ∧ ChainOk (some q.topic) rest

/-- Adjacent items share a topic only inside a uniform-topic suffix: if
positions `i` and `i+1` share topic `T`, every item from position `i` on has
topic `T`. -/
def ForcedAdjacencyOnly : List Question → Prop
  | [] => True
  | [_] => True
  | q1 :: q2 :: rest =>
      (q1.topic = q2.topic → ∀ r ∈ q2 :: rest, r.topic = q1.topic)
      ∧ ForcedAdjacencyOnly (q2 :: rest)

/-! ## Concrete inputs used by counterexamples and code-bug evaluations -/

/-- A topic-`t3` question with discrimination 1.0, below the 1.4 threshold. -/
def q3cex : Question := ⟨("q3"), ("t3"), 0, 1, 0⟩

/-- Questions for the interleaver counterexample: three of topic A, one of
topic B. -/
def qa1 : Question := ⟨("a1"), ("A"), 1, 1, 0⟩

def qa2 : Question := ⟨("a2"), ("A"), 1, 1, 0⟩

def qa3 : Question := ⟨("a3"), ("A"), 1, 1, 0⟩

def qb1 : Question := ⟨("b1"), ("B"), 1, 1, 0⟩

/-- A catalog with a single topic-`T` question of medium difficulty
(`b = 1`, `a = 1.2`). -/
def cexQ1 : Question := ⟨("q1"), ("T"), 1, mkRat 6 5, 0⟩

/-- A profile knowing only topic `T`. -/
def cexProfile1 : StudentProfile := ⟨[(("T"), 0)], [], [], 0⟩

/-- Five consecutive incorrect responses, all older than the 30-day recency
window (so their question ids are not "recent"). -/
def cexResp1 : List StudentResponse :=
  [⟨("r1"), ("T"), false, 31⟩, ⟨("r2"), ("T"), false, 31⟩, ⟨("r3"), ("T"), false, 31⟩,
   ⟨("r4"), ("T"), false, 31⟩, ⟨("r5"), ("T"), false, 31⟩]

/-- A deterministic RNG instantiation: `sample` takes the first `k`
candidates, `choice` picks index 0. -/
def cexRng : Rng := ⟨fun l k => l.take k, fun l k => l.take k, fun _ => 0, fun _ => 0⟩

/-- A catalog with two easy-range questions per topic `T1`-`T4`, one
medium-range question for `T1` and `T2`, and a hard question `rv` that was
answered correctly 10 days ago. -/
def c2Catalog : List Question := [
  ⟨("e11"), ("T1"), mkRat 1 2, mkRat 6 5, 0⟩, ⟨("e12"), ("T1"), mkRat 3 5, mkRat 6 5, 0⟩,
  ⟨("e21"), ("T2"), mkRat 1 2, mkRat 6 5, 0⟩, ⟨("e22"), ("T2"), mkRat 3 5, mkRat 6 5, 0⟩,
  ⟨("e31"), ("T3"), mkRat 1 2, mkRat 6 5, 0⟩, ⟨("e32"), ("T3"), mkRat 3 5, mkRat 6 5, 0⟩,
  ⟨("e41"), ("T4"), mkRat 1 2, mkRat 6 5, 0⟩, ⟨("e42"), ("T4"), mkRat 3 5, mkRat 6 5, 0⟩,
  ⟨("m1"), ("T1"), 1, mkRat 6 5, 0⟩, ⟨("m2"), ("T2"), 1, mkRat 6 5, 0⟩,
  ⟨("rv"), ("T1"), 2, mkRat 3 2, 0⟩]

/-- A profile with four topics, weakest first. -/
def c2Profile : StudentProfile :=
  ⟨[(("T1"), -2), (("T2"), -1), (("T3"), 0), (("T4"), 1)], [], [], 20⟩

/-- One response: question `rv` answered correctly 10 days ago — inside the
7-14-day review window, but thereby also inside the 30-day recency window. -/
def c2Resp : List StudentResponse := [⟨("rv"), ("T1"), true, 10⟩]

/-! # Theorems for the claims -/

/-! ## C9: probability bounds and monotonicity -/

/-- C9: for every theta and item parameters with `a > 0` and `0 ≤ c < 1`,
`calculate_probability_3PL` lies in `[c, 1]` and is monotone increasing in
theta across all three branches (the `x > 20` cutoff, the `x < -20` cutoff
and the logistic formula). -/
theorem C9_probability_bounds_monotone (theta theta' b a c : ℝ)
    (ha : 0 < a) (hc0 : 0 ≤ c) (hc1 : c < 1) :
    (c ≤ calculate_probability_3PL theta b a c ∧ calculate_probability_3PL theta b a c ≤ 1)
    ∧ (theta ≤ theta' →
        calculate_probability_3PL theta b a c ≤ calculate_probability_3PL theta' b a c) :=
  ⟨prob_mem hc0 hc1, fun h => prob_mono ha hc0 hc1 h⟩

/-- Witness for C9 at `theta = 0, theta' = 1, b = 1, a = 1.5, c = 0.25`. -/
theorem C9_probability_bounds_monotone_witness :
    ((0.25 : ℝ) ≤ calculate_probability_3PL 0 1 1.5 0.25
      ∧ calculate_probability_3PL 0 1 1.5 0.25 ≤ 1)
    ∧ calculate_probability_3PL 0 1 1.5 0.25 ≤ calculate_probability_3PL 1 1 1.5 0.25 := by
  have h := C9_probability_bounds_monotone 0 1 1 1.5 0.25 (by norm_num) (by norm_num) (by norm_num)
  exact ⟨h.1, h.2 (by norm_num)⟩

/-! ## C5: sign and attempt-decay of the theta update -/

lemma thetaDelta_correct (theta b a c : ℝ) (n : ℕ) :
    thetaDelta theta b a c n true
      = 0.3 / (1 + 0.02 * (n : ℝ)) * (1 - calculate_probability_3PL theta b a c) := by
  simp [thetaDelta]

lemma thetaDelta_incorrect (theta b a c : ℝ) (n : ℕ) :
    thetaDelta theta b a c n false
      = -(0.3 / (1 + 0.02 * (n : ℝ)) * calculate_probability_3PL theta b a c) := by
  simp [thetaDelta]

/-- C5 counterexample: the claim asserts that an incorrect response produces
`Δθ < 0` for any `b` whenever `a > 0` and `0 ≤ c < 1`.  At
`theta = 0, b = 21, a = 1, c = 0` (all hypotheses hold), the exponent
`-a(θ-b) = 21` exceeds the overflow cutoff 20, so `P = c = 0` and the
incorrect-response delta is exactly 0, not negative; the magnitude is also 0
at every attempts count, so it is not strictly decreasing either. -/
theorem C5_counterexample_zero_delta :
    (0 : ℝ) < 1 ∧ (0 : ℝ) ≤ 0 ∧ (0 : ℝ) < 1
    ∧ thetaDelta 0 21 1 0 0 false = 0 ∧ thetaDelta 0 21 1 0 1 false = 0 := by
  have hP : calculate_probability_3PL 0 21 1 0 = 0 := by
    unfold calculate_probability_3PL
    rw [if_pos (by norm_num)]
  refine ⟨by norm_num, le_refl 0, by norm_num, ?_, ?_⟩ <;>
    rw [thetaDelta_incorrect, hP] <;> ring

/-- C5 (amended): with `a > 0`, `0 ≤ c < 1`: a correct response on an item
with `b > θ` gives `Δθ > 0`, and its magnitude strictly decreases in the
attempts count; an incorrect response gives `Δθ < 0` with magnitude strictly
decreasing in attempts, provided additionally the overflow cutoff does not
zero the probability (`-a(θ-b) ≤ 20`, or `c > 0`). -/
theorem C5_theta_delta_amended (theta b a c : ℝ) (n : ℕ)
    (ha : 0 < a) (hc0 : 0 ≤ c) (hc1 : c < 1) :
    (theta < b → 0 < thetaDelta theta b a c n true)
    ∧ ((-a * (theta - b) ≤ 20 ∨ 0 < c) → thetaDelta theta b a c n false < 0)
    ∧ (theta < b →
        |thetaDelta theta b a c (n + 1) true| < |thetaDelta theta b a c n true|)
    ∧ ((-a * (theta - b) ≤ 20 ∨ 0 < c) →
        |thetaDelta theta b a c (n + 1) false| < |thetaDelta theta b a c n false|) := by
  have hlr := learning_rate_pos n
  have hlr1 := learning_rate_pos (n + 1)
  have hanti := learning_rate_strict_anti n
  have hcast : ((n : ℝ) + 1) = ((n + 1 : ℕ) : ℝ) := by push_cast; ring
  rw [hcast] at hanti
  refine ⟨?_, ?_, ?_, ?_⟩
  · intro hb
    have hP := prob_lt_one ha hc0 hc1 hb
    rw [thetaDelta_correct]
    apply mul_pos hlr
    linarith
  · intro hcase
    have hP := prob_pos hc0 hc1 hcase
    rw [thetaDelta_incorrect]
    have := mul_pos hlr hP
    linarith
  · intro hb
    have hP := prob_lt_one ha hc0 hc1 hb
    rw [thetaDelta_correct, thetaDelta_correct]
    rw [abs_of_nonneg (mul_nonneg (le_of_lt hlr1) (by linarith)),
      abs_of_nonneg (mul_nonneg (le_of_lt hlr) (by linarith))]
    apply mul_lt_mul_of_pos_right hanti
    linarith
  · intro hcase
    have hP := prob_pos hc0 hc1 hcase
    rw [thetaDelta_incorrect, thetaDelta_incorrect, abs_neg, abs_neg]
    rw [abs_of_nonneg (mul_nonneg (le_of_lt hlr1) (le_of_lt hP)),
      abs_of_nonneg (mul_nonneg (le_of_lt hlr) (le_of_lt hP))]
    exact mul_lt_mul_of_pos_right hanti hP

/-- Witness for C5 (amended) at `theta = 0, b = 1, a = 1.5, c = 0.25, n = 0`. -/
theorem C5_theta_delta_amended_witness :
    0 < thetaDelta 0 1 1.5 0.25 0 true
    ∧ thetaDelta 0 1 1.5 0.25 0 false < 0
    ∧ |thetaDelta 0 1 1.5 0.25 1 true| < |thetaDelta 0 1 1.5 0.25 0 true|
    ∧ |thetaDelta 0 1 1.5 0.25 1 false| < |thetaDelta 0 1 1.5 0.25 0 false| := by
  have h := C5_theta_delta_amended 0 1 1.5 0.25 0 (by norm_num) (by norm_num) (by norm_num)
  exact ⟨h.1 (by norm_num), h.2.1 (Or.inr (by norm_num)),
    h.2.2.1 (by norm_num), h.2.2.2 (Or.inr (by norm_num))⟩

/-! ## C10: totality and bounds of the initial standard error -/

/-- C10: `calculate_initial_SE` divides by zero (raises) at
`num_questions = 0`, and for every `num_questions ≥ 1` and accuracy in
`[0, 1]` it returns a value in `[0.1, 0.6]`. -/
theorem C10_initial_SE_total_iff_positive (num_questions : ℕ) (accuracy : ℝ)
    (hn : 1 ≤ num_questions) (h0 : 0 ≤ accuracy) (h1 : accuracy ≤ 1) :
    (∀ acc : ℝ, calculate_initial_SE 0 acc = none)
    ∧ ∃ v, calculate_initial_SE num_questions accuracy = some v ∧ 0.1 ≤ v ∧ v ≤ 0.6 := by
  constructor
  · intro acc
    unfold calculate_initial_SE
    rw [if_pos rfl]
  · have hn0 : num_questions ≠ 0 := by omega
    unfold calculate_initial_SE
    rw [if_neg hn0]
    exact ⟨_, rfl, le_min (by norm_num) (le_max_left _ _), min_le_left _ _⟩

/-- Witness for C10 at `num_questions = 4, accuracy = 1/2`. -/
theorem C10_initial_SE_witness :
    (1 ≤ 4)
    ∧ ∃ v, calculate_initial_SE 4 (1 / 2) = some v ∧ 0.1 ≤ v ∧ v ≤ 0.6 :=
  ⟨by norm_num,
    (C10_initial_SE_total_iff_positive 4 (1 / 2) (by norm_num) (by norm_num) (by norm_num)).2⟩

/-! ## C4: invariants of theta-update sequences -/

lemma update_theta_step_theta_bounds (t : TopicTheta) (b a c : ℝ) (cor : Bool) :
    -3 ≤ (update_theta_after_response t b a c cor).theta
    ∧ (update_theta_after_response t b a c cor).theta ≤ 3 := by
  unfold update_theta_after_response bound_theta
  exact ⟨le_max_left _ _, max_le (by norm_num) (min_le_left _ _)⟩

lemma update_theta_step_SE_bounds (t : TopicTheta) (b a c : ℝ) (cor : Bool)
    (h1 : 0.1 ≤ t.confidence_SE) :
    0.1 ≤ (update_theta_after_response t b a c cor).confidence_SE
    ∧ (update_theta_after_response t b a c cor).confidence_SE ≤ t.confidence_SE := by
  unfold update_theta_after_response
  exact ⟨le_max_left _ _, max_le (by linarith) (by nlinarith)⟩

/-- C4: for every sequence of `update_theta_after_response` calls starting
from a `TopicTheta` with theta in `[-3, 3]` and SE in `[0.1, 0.6]`, the
resulting state has theta in `[-3, 3]` and SE in `[0.1, 0.6]`, and SE never
rises above its starting value.  Quantifying over all sequences covers every
prefix of a longer run, i.e. every state written. -/
theorem C4_update_sequence_invariants (rs : List (ℝ × ℝ × ℝ × Bool)) (t0 : TopicTheta)
    (hth1 : -3 ≤ t0.theta) (hth2 : t0.theta ≤ 3)
    (hSE1 : 0.1 ≤ t0.confidence_SE) (hSE2 : t0.confidence_SE ≤ 0.6) :
    (-3 ≤ (applyResponses t0 rs).theta ∧ (applyResponses t0 rs).theta ≤ 3)
    ∧ (0.1 ≤ (applyResponses t0 rs).confidence_SE
        ∧ (applyResponses t0 rs).confidence_SE ≤ 0.6)
    ∧ (applyResponses t0 rs).confidence_SE ≤ t0.confidence_SE := by
  induction rs generalizing t0 with
  | nil => exact ⟨⟨hth1, hth2⟩, ⟨hSE1, hSE2⟩, le_refl _⟩
  | cons r rest ih =>
    have hstep1 := update_theta_step_theta_bounds t0 r.1 r.2.1 r.2.2.1 r.2.2.2
    have hstep2 := update_theta_step_SE_bounds t0 r.1 r.2.1 r.2.2.1 r.2.2.2 hSE1
    have hrec := ih (applyResponse t0 r) hstep1.1 hstep1.2 hstep2.1 (le_trans hstep2.2 hSE2)
    have hfold : applyResponses t0 (r :: rest) = applyResponses (applyResponse t0 r) rest := rfl
    rw [hfold]
    exact ⟨hrec.1, hrec.2.1, le_trans hrec.2.2 hstep2.2⟩

/-- Witness for C4: one correct response on item `(b, a, c) = (1, 1.5, 0.25)`
from the state `θ = 0, SE = 0.5, attempts = 0`. -/
theorem C4_update_sequence_invariants_witness :
    (-3 ≤ (applyResponses ⟨0, 0.5, 0, none⟩ [(1, 1.5, 0.25, true)]).theta
      ∧ (applyResponses ⟨0, 0.5, 0, none⟩ [(1, 1.5, 0.25, true)]).theta ≤ 3)
    ∧ (0.1 ≤ (applyResponses ⟨0, 0.5, 0, none⟩ [(1, 1.5, 0.25, true)]).confidence_SE
        ∧ (applyResponses ⟨0, 0.5, 0, none⟩ [(1, 1.5, 0.25, true)]).confidence_SE ≤ 0.6)
    ∧ (applyResponses ⟨0, 0.5, 0, none⟩ [(1, 1.5, 0.25, true)]).confidence_SE ≤ (0.5 : ℝ) :=
  C4_update_sequence_invariants [(1, 1.5, 0.25, true)] ⟨0, 0.5, 0, none⟩
    (by norm_num) (by norm_num) (by norm_num) (by norm_num)

/-! ## C6: the circuit-breaker trigger rule -/

lemma consecutiveFailures_le_length (l : List StudentResponse) :
    consecutiveFailures l ≤ l.length := by
  induction l with
  | nil => exact le_refl 0
  | cons r rest ih =>
    unfold consecutiveFailures
    split_ifs
    · simp
    · simpa using Nat.succ_le_succ ih

/-- C6: `check_circuit_breaker` returns true iff, among the newest 10 log
entries (the log is newest-first), the count of consecutive incorrect
answers starting from the newest reaches 5; it returns false whenever fewer
than 5 responses exist overall. -/
theorem C6_circuit_breaker_trigger_rule (responses : List StudentResponse) :
    (check_circuit_breaker responses = true
      ↔ 5 ≤ consecutiveFailures (responses.take 10))
    ∧ (responses.length < 5 → check_circuit_breaker responses = false) := by
  constructor
  · unfold check_circuit_breaker
    split_ifs with h
    · constructor
      · intro hfalse
        cases hfalse
      · intro h5
        have := consecutiveFailures_le_length (responses.take 10)
        omega
    · exact decide_eq_true_iff
  · intro hlen
    unfold check_circuit_breaker
    rw [if_pos]
    have : (responses.take 10).length ≤ responses.length := by
      simp [List.length_take]
    omega

/-- Witness for C6: a log of three incorrect responses (fewer than 5 overall)
does not trigger. -/
theorem C6_circuit_breaker_witness :
    (([⟨("r1"), ("t"), false, 0⟩, ⟨("r2"), ("t"), false, 0⟩,
        ⟨("r3"), ("t"), false, 0⟩] : List StudentResponse).length < 5)
    ∧ check_circuit_breaker [⟨("r1"), ("t"), false, 0⟩, ⟨("r2"), ("t"), false, 0⟩,
        ⟨("r3"), ("t"), false, 0⟩] = false :=
  ⟨by norm_num,
    (C6_circuit_breaker_trigger_rule _).2 (by norm_num)⟩

/-! ## C7: phase formulas and the phase-switch marker -/

lemma runProfile_preserves_switch (run : List Bool) (p : ProfileCounters) (v : ℕ)
    (h : p.phase_switched_at_quiz = some v) :
    (runProfile p run).phase_switched_at_quiz = some v := by
  induction run generalizing p with
  | nil => exact h
  | cons b rest ih =>
    have hstep : (quizStepProfile p b).phase_switched_at_quiz = some v := by
      unfold quizStepProfile
      split_ifs <;> simp [h]
    exact ih (quizStepProfile p b) hstep

lemma runProfile_switch_spec (run : List Bool) (q0 : ℕ) :
    (runProfile ⟨q0, none⟩ run).phase_switched_at_quiz = phaseSwitchSpec q0 run := by
  induction run generalizing q0 with
  | nil => rfl
  | cons b rest ih =>
    cases b with
    | true =>
      have hstep : quizStepProfile ⟨q0, none⟩ true = ⟨q0 + 1, none⟩ := by
        simp [quizStepProfile]
      have hrun : runProfile ⟨q0, none⟩ (true :: rest)
          = runProfile ⟨q0 + 1, none⟩ rest := by
        unfold runProfile
        rw [List.foldl_cons, hstep]
      rw [hrun, ih]
      simp [phaseSwitchSpec]
    | false =>
      by_cases hq : q0 < 14
      · have hstep : quizStepProfile ⟨q0, none⟩ false = ⟨q0 + 1, none⟩ := by
          simp [quizStepProfile, hq]
        have hrun : runProfile ⟨q0, none⟩ (false :: rest)
            = runProfile ⟨q0 + 1, none⟩ rest := by
          unfold runProfile
          rw [List.foldl_cons, hstep]
        rw [hrun, ih]
        have hcond : ¬ (14 ≤ q0) := by omega
        simp [phaseSwitchSpec, hcond]
      · have hstep : quizStepProfile ⟨q0, none⟩ false = ⟨q0 + 1, some q0⟩ := by
          simp [quizStepProfile, hq]
        have hrun : runProfile ⟨q0, none⟩ (false :: rest)
            = runProfile ⟨q0 + 1, some q0⟩ rest := by
          unfold runProfile
          rw [List.foldl_cons, hstep]
        rw [hrun, runProfile_preserves_switch rest _ q0 rfl]
        have hcond : 14 ≤ q0 := by omega
        simp [phaseSwitchSpec, hcond]

/-- C7 counterexample: the claim says `phase_switched_at_quiz` is written at
the first quiz generated with count ≥ 14.  Run 14 normal quizzes from a fresh
profile (count reaches 14, marker still unset), then one quiz on which the
circuit breaker fires: that quiz is generated with count 14 ≥ 14, yet the
recovery path does not write the marker, which stays `none`. -/
theorem C7_counterexample_recovery_skips_switch :
    (runProfile ⟨0, none⟩ (List.replicate 14 false)).completed_quiz_count = 14
    ∧ (runProfile ⟨0, none⟩ (List.replicate 14 false)).phase_switched_at_quiz = none
    ∧ (runProfile ⟨0, none⟩ (List.replicate 14 false ++ [true])).phase_switched_at_quiz
        = none := by
  refine ⟨by decide, by decide, by decide⟩

/-- C7 (amended): on the normal path the phase and exploration ratio follow
the claimed formulas (`q < 14` → exploration with
`max(0.6 − 0.04·q, 0.3)`; `q ≥ 14` → exploitation with ratio 0); and over
any run from a fresh profile, `phase_switched_at_quiz` is written at most
once, namely at the first NON-RECOVERY quiz generated with count ≥ 14 (to
that quiz's count) and never changed afterwards; recovery quizzes never set
it. -/
theorem C7_phase_formulas_and_switch_once (q0 : ℕ) (run : List Bool) :
    (∀ q : ℕ,
      (q < 14 → learning_phase_of q = ("exploration")
        ∧ exploration_ratio_of q = max (0.6 - (q : ℚ) * 0.04) 0.3)
      ∧ (14 ≤ q → learning_phase_of q = ("exploitation")
        ∧ exploration_ratio_of q = 0))
    ∧ (runProfile ⟨q0, none⟩ run).phase_switched_at_quiz = phaseSwitchSpec q0 run := by
  constructor
  · intro q
    constructor
    · intro hq
      unfold learning_phase_of exploration_ratio_of
      rw [if_pos hq, if_pos hq]
      exact ⟨rfl, rfl⟩
    · intro hq
      have hq' : ¬ q < 14 := by omega
      unfold learning_phase_of exploration_ratio_of
      rw [if_neg hq', if_neg hq']
      exact ⟨rfl, rfl⟩
  · exact runProfile_switch_spec run q0

/-- Witness for C7 (amended) at counts 13 and 14 and the one-quiz run
`[false]` from count 0. -/
theorem C7_phase_formulas_witness :
    (13 < 14 ∧ learning_phase_of 13 = ("exploration"))
    ∧ (14 ≤ 14 ∧ exploration_ratio_of 14 = 0)
    ∧ (runProfile ⟨0, none⟩ [false]).phase_switched_at_quiz = phaseSwitchSpec 0 [false] := by
  have h := C7_phase_formulas_and_switch_once 0 [false]
  exact ⟨⟨by norm_num, ((h.1 13).1 (by norm_num)).1⟩,
    ⟨le_refl 14, ((h.1 14).2 (le_refl 14)).2⟩, h.2⟩

/-! ## Interleaver lemmas (towards C1 and C8) -/

lemma groupsWF_cons {s : String} {qs : List Question} {gs : List (String × List Question)} :
    GroupsWF ((s, qs) :: gs) ↔ (qs ≠ [] ∧ ∀ q ∈ qs, q.topic = s) ∧ GroupsWF gs := by
  simp [GroupsWF]

lemma addToGroup_wf (q : Question) :
    ∀ gs : List (String × List Question), GroupsWF gs → GroupsWF (addToGroup gs q) := by
  intro gs
  induction gs with
  | nil =>
    intro _
    unfold addToGroup
    rw [groupsWF_cons]
    refine ⟨⟨by simp, ?_⟩, ?_⟩
    · intro r hr
      simp at hr
      rw [hr]
    · intro p hp
      simp at hp
  | cons hd tl ih =>
    obtain ⟨s, qs⟩ := hd
    intro hwf
    obtain ⟨⟨h1, h2⟩, h3⟩ := groupsWF_cons.mp hwf
    unfold addToGroup
    split_ifs with hst
    · rw [groupsWF_cons]
      refine ⟨⟨by simp, ?_⟩, h3⟩
      intro r hr
      rcases List.mem_append.mp hr with hr | hr
      · exact h2 r hr
      · simp at hr
        rw [hr, ← hst]
    · rw [groupsWF_cons]
      exact ⟨⟨h1, h2⟩, ih h3⟩

lemma groupByTopic_wf (questions : List Question) : GroupsWF (groupByTopic questions) := by
  have main : ∀ (qs : List Question) (init : List (String × List Question)),
      GroupsWF init → GroupsWF (qs.foldl addToGroup init) := by
    intro qs
    induction qs with
    | nil => intro init h; exact h
    | cons q rest ih =>
      intro init h
      rw [List.foldl_cons]
      exact ih (addToGroup init q) (addToGroup_wf q init h)
  apply main
  intro p hp
  simp at hp

lemma chooseMod_mem (k : ℕ) (l : List String) (h : l ≠ []) : chooseMod k l ∈ l := by
  cases l with
  | nil => exact absurd rfl h
  | cons s rest => exact List.get_mem _ _ _

lemma availableTopics_subset (remaining : List String) (lastTopic : Option String) :
    ∀ s ∈ availableTopics remaining lastTopic, s ∈ remaining := by
  intro s hs
  cases lastTopic with
  | none => simpa [availableTopics] using hs
  | some t =>
    simp only [availableTopics] at hs
    split_ifs at hs with hemp
    · exact hs
    · exact List.mem_of_mem_filter hs

lemma availableTopics_ne_nil (remaining : List String) (lastTopic : Option String)
    (h : remaining ≠ []) : availableTopics remaining lastTopic ≠ [] := by
  cases lastTopic with
  | none => simpa [availableTopics] using h
  | some t =>
    simp only [availableTopics]
    split_ifs with hemp
    · exact h
    · intro hnil
      exact hemp (by rw [hnil]; rfl)

/-- Either every remaining topic equals the last one (the reset case), or no
available topic does. -/
lemma availableTopics_cases (remaining : List String) (t : String) :
    (∀ s ∈ remaining, s = t) ∨ (∀ s ∈ availableTopics remaining (some t), s ≠ t) := by
  by_cases hemp : (remaining.filter (fun s => s != t)).isEmpty
  · left
    intro s hs
    rw [List.isEmpty_iff] at hemp
    by_contra hne
    have hmem : s ∈ remaining.filter (fun s => s != t) :=
      List.mem_filter.mpr ⟨hs, by simpa using hne⟩
    rw [hemp] at hmem
    simp at hmem
  · right
    intro s hs
    simp only [availableTopics] at hs
    rw [if_neg hemp] at hs
    have := (List.mem_filter.mp hs).2
    simpa using this

lemma popTopic_spec :
    ∀ (gs : List (String × List Question)) (t : String) (q : Question)
      (gs2 : List (String × List Question)),
      GroupsWF gs → popTopic gs t = some (q, gs2) →
      q.topic = t ∧ GroupsWF gs2 ∧ ∀ s ∈ gs2.map Prod.fst, s ∈ gs.map Prod.fst := by
  intro gs
  induction gs with
  | nil =>
    intro t q gs2 _ hpop
    simp [popTopic] at hpop
  | cons hd tl ih =>
    obtain ⟨s, qs⟩ := hd
    intro t q gs2 hwf hpop
    obtain ⟨⟨hne, hall⟩, hwfTl⟩ := groupsWF_cons.mp hwf
    unfold popTopic at hpop
    split_ifs at hpop with hst
    · cases qs with
      | nil => exact absurd rfl hne
      | cons q0 rest =>
        rw [Option.some.injEq, Prod.mk.injEq] at hpop
        obtain ⟨hq, hgs2⟩ := hpop
        refine ⟨?_, ?_, ?_⟩
        · rw [← hq, hall q0 (List.mem_cons_self q0 rest)]
          exact hst
        · rw [← hgs2]
          by_cases hrest : rest.isEmpty
          · rw [if_pos hrest]
            exact hwfTl
          · rw [if_neg hrest]
            rw [groupsWF_cons]
            refine ⟨⟨by simpa [List.isEmpty_iff] using hrest, ?_⟩, hwfTl⟩
            intro r hr
            exact hall r (by simp [hr])
        · rw [← hgs2]
          by_cases hrest : rest.isEmpty
          · rw [if_pos hrest]
            intro x hx
            simp [hx]
          · rw [if_neg hrest]
            intro x hx
            simpa using hx
    · cases hrec : popTopic tl t with
      | none =>
        rw [hrec] at hpop
        cases hpop
      | some pr =>
        obtain ⟨q2, gs3⟩ := pr
        rw [hrec] at hpop
        rw [Option.some.injEq, Prod.mk.injEq] at hpop
        obtain ⟨hq, hgs2⟩ := hpop
        obtain ⟨ht, hwf3, hsub⟩ := ih t q2 gs3 hwfTl hrec
        refine ⟨?_, ?_, ?_⟩
        · rw [← hq]
          exact ht
        · rw [← hgs2, groupsWF_cons]
          exact ⟨⟨hne, hall⟩, hwf3⟩
        · rw [← hgs2]
          intro x hx
          simp only [List.map_cons, List.mem_cons] at hx ⊢
          rcases hx with hx | hx
          · exact Or.inl hx
          · exact Or.inr (hsub x hx)

lemma interleaveGo_length_le (rng : ℕ → ℕ) :
    ∀ (fuel : ℕ) (gs : List (String × List Question)) (lastTopic : Option String),
      (interleaveGo rng fuel gs lastTopic).length ≤ fuel := by
  intro fuel
  induction fuel with
  | zero => intro gs lastTopic; simp [interleaveGo]
  | succ f ih =>
    intro gs lastTopic
    unfold interleaveGo
    split_ifs with hemp
    · simp
    · cases hpop : popTopic gs
          (chooseMod (rng (f + 1)) (availableTopics (gs.map Prod.fst) lastTopic)) with
      | none => simp
      | some pr =>
        obtain ⟨q, gs2⟩ := pr
        simpa using Nat.succ_le_succ (ih gs2 (some q.topic))

lemma interleave_length_le (rng : ℕ → ℕ) (questions : List Question) :
    (interleave_questions_by_topic rng questions).length ≤ questions.length :=
  interleaveGo_length_le rng questions.length (groupByTopic questions) none

/-- If every remaining topic is `t`, everything the loop still emits has
topic `t`. -/
lemma interleaveGo_all_same (rng : ℕ → ℕ) (t : String) :
    ∀ (fuel : ℕ) (gs : List (String × List Question)) (lastTopic : Option String),
      GroupsWF gs → (∀ s ∈ gs.map Prod.fst, s = t) →
      ∀ r ∈ interleaveGo rng fuel gs lastTopic, r.topic = t := by
  intro fuel
  induction fuel with
  | zero =>
    intro gs lastTopic _ _ r hr
    simp [interleaveGo] at hr
  | succ f ih =>
    intro gs lastTopic hwf hall r hr
    unfold interleaveGo at hr
    split_ifs at hr with hemp
    · simp at hr
    · cases hpop : popTopic gs
          (chooseMod (rng (f + 1)) (availableTopics (gs.map Prod.fst) lastTopic)) with
      | none =>
        rw [hpop] at hr
        simp at hr
      | some pr =>
        obtain ⟨q, gs2⟩ := pr
        rw [hpop] at hr
        obtain ⟨htopic, hwf2, hsub⟩ := popTopic_spec gs _ q gs2 hwf hpop
        have hkeys : gs.map Prod.fst ≠ [] := by
          intro hcontra
          apply hemp  -- isEmpty is false here
          rw [List.isEmpty_iff]
          cases gs with
          | nil => rfl
          | cons p ps => simp at hcontra
        have hchosen : chooseMod (rng (f + 1)) (availableTopics (gs.map Prod.fst) lastTopic)
            ∈ gs.map Prod.fst :=
          availableTopics_subset _ _ _
            (chooseMod_mem _ _ (availableTopics_ne_nil _ _ hkeys))
        have hqt : q.topic = t := by
          rw [htopic]
          exact hall _ hchosen
        rcases List.mem_cons.mp hr with hr | hr
        · rw [hr, hqt]
        · exact ih gs2 (some q.topic) hwf2 (fun s hs => hall s (hsub s hs)) r hr

/-- The central interleaver invariant: the emitted list satisfies `ChainOk`
relative to the incoming last topic. -/
lemma interleaveGo_chainOk (rng : ℕ → ℕ) :
    ∀ (fuel : ℕ) (gs : List (String × List Question)) (lastTopic : Option String),
      GroupsWF gs → ChainOk lastTopic (interleaveGo rng fuel gs lastTopic) := by
  intro fuel
  induction fuel with
  | zero =>
    intro gs lastTopic _
    simp [interleaveGo, ChainOk]
  | succ f ih =>
    intro gs lastTopic hwf
    unfold interleaveGo
    split_ifs with hemp
    · simp [ChainOk]
    · cases hpop : popTopic gs
          (chooseMod (rng (f + 1)) (availableTopics (gs.map Prod.fst) lastTopic)) with
      | none => simp [ChainOk]
      | some pr =>
        obtain ⟨q, gs2⟩ := pr
        obtain ⟨htopic, hwf2, hsub⟩ := popTopic_spec gs _ q gs2 hwf hpop
        refine ⟨?_, ih gs2 (some q.topic) hwf2⟩
        intro hlast r hr
        -- the chosen topic equals the last one: only possible in the reset case
        subst hlast
        rcases availableTopics_cases (gs.map Prod.fst) q.topic with hcase | hcase
        · -- every remaining topic equals q.topic, so the rest of the run does too
          exact interleaveGo_all_same rng q.topic f gs2 (some q.topic) hwf2
            (fun s hs => hcase s (hsub s hs)) r hr
        · -- otherwise the chosen topic differs from the last: contradiction
          exfalso
          have hkeys : gs.map Prod.fst ≠ [] := by
            intro hcontra
            apply hemp
            rw [List.isEmpty_iff]
            cases gs with
            | nil => rfl
            | cons p ps => simp at hcontra
          have hchosen := chooseMod_mem (rng (f + 1)) _
            (availableTopics_ne_nil (gs.map Prod.fst) (some q.topic) hkeys)
          exact hcase _ hchosen htopic.symm

lemma chainOk_forced :
    ∀ (l : List Question) (lastTopic : Option String),
      ChainOk lastTopic l → ForcedAdjacencyOnly l := by
  intro l
  induction l with
  | nil => intro _ _; trivial
  | cons q rest ih =>
    intro lastTopic h
    obtain ⟨h1, h2⟩ := h
    cases rest with
    | nil => trivial
    | cons q2 rest2 =>
      obtain ⟨h21, h22⟩ := h2
      refine ⟨?_, ih (some q.topic) ⟨h21, h22⟩⟩
      intro heq r hr
      rcases List.mem_cons.mp hr with hr | hr
      · rw [hr, ← heq]
      · have := h21 (by rw [heq]) r hr
        rw [this, ← heq]

/-! ## C8: adjacency in the interleaved quiz -/

/-- C8 counterexample: with input questions of topics `[A, A, A, B]` and an
RNG that first picks topic A, the interleaver emits topics `[A, B, A, A]` —
two adjacent items share topic A although two distinct topics are
represented.  This refutes the claim that no two adjacent items ever share a
topic whenever at least two topics are represented. -/
theorem C8_counterexample_adjacent_topics :
    (interleave_questions_by_topic (fun _ => 0) [qa1, qa2, qa3, qb1]).map (fun q => q.topic)
      = [("A"), ("B"), ("A"), ("A")]
    ∧ (("A") : String) ≠ ("B") := by
  constructor
  · rfl
  · decide

/-- C8 (amended): for every input list of questions and every sequence of
RNG choices, the interleaver's output only repeats a topic between adjacent
positions when it is forced to: from the first such repetition onwards every
remaining emitted question has that same topic (the `available` list is
reset only when every remaining topic equals the last emitted one). -/
theorem C8_interleave_forced_adjacency_only (rng : ℕ → ℕ) (questions : List Question) :
    ForcedAdjacencyOnly (interleave_questions_by_topic rng questions) :=
  chainOk_forced _ none
    (interleaveGo_chainOk rng questions.length (groupByTopic questions) none
      (groupByTopic_wf questions))

/-! ## C3: the IRT selector's relaxation is dead code -/

/-- C3 (code bug): the catalog holds exactly one question of topic `t3`; it
is not recent, but its discrimination 1.0 is below the requested minimum
1.4, so the strict filter is empty.  The claim (and the code's own comment)
says the selector then relaxes the constraints and only returns `⊥` when no
non-recent topic item exists — but the relaxation pass iterates the consumed
`questions_query` stream, so the selector returns `none` anyway. -/
theorem C3_selector_dead_fallback :
    select_optimal_question_IRT [q3cex] ("t3") 0 [] (mkRat 7 5) = none
    ∧ ([q3cex].filter (fun q =>
        q.topic == ("t3") && !(([] : List String).contains q.question_id))).length = 1 := by
  constructor
  · rfl
  · rfl

/-! ## C2: recovery-quiz composition -/

/-- C2 (code bug): with a catalog offering two easy-range questions in each
of the four weakest topics, one medium-range question in each of the two
weakest, and a question (`rv`) answered correctly 10 days ago, the recovery
quiz consists of 8 easy-range questions (2 from EACH of the 4 weakest
topics, not 2+2+2+1 = 7) and 2 medium-range ones, and contains no review
question: the code's review lookup excludes everything inside the 30-day
recency window, which contains the whole 7-14-day review window.  The code's
own docstring and the `RECOVERY_QUIZ_*_COUNT` constants promise 7 easy, 2
medium and 1 review. -/
theorem C2_recovery_composition_evaluation :
    ((generate_recovery_quiz c2Catalog c2Profile c2Resp cexRng).filter (fun q =>
        decide (mkRat 2 5 ≤ q.difficulty_b) && decide (q.difficulty_b ≤ mkRat 7 10))).length = 8
    ∧ ((generate_recovery_quiz c2Catalog c2Profile c2Resp cexRng).filter (fun q =>
        decide (mkRat 4 5 ≤ q.difficulty_b) && decide (q.difficulty_b ≤ mkRat 11 10))).length = 2
    ∧ (generate_recovery_quiz c2Catalog c2Profile c2Resp cexRng).length = 10
    ∧ ¬ (("rv") ∈ (generate_recovery_quiz c2Catalog c2Profile c2Resp cexRng).map
        (fun q => q.question_id)) := by
  refine ⟨?_, ?_, ?_, ?_⟩ <;> decide

/-! ## C1: length and distinctness of emitted quizzes -/

lemma generate_recovery_quiz_length_le (catalog : List Question) (student : StudentProfile)
    (responses : List StudentResponse) (rng : Rng) :
    (generate_recovery_quiz catalog student responses rng).length ≤ 10 := by
  simp only [generate_recovery_quiz]
  refine le_trans (interleave_length_le _ _) ?_
  exact le_trans (List.length_take_le _ _) (le_refl 10)

/-- C1 counterexample: the claim asserts no question id appears twice in any
emitted quiz, whatever profile, catalog and response history.  With a
catalog holding a single topic-`T` question of difficulty 1.0, a profile
knowing only `T`, and five old incorrect responses, the circuit breaker
fires and the recovery path selects the same question once via the easy
slot's relaxed fallback and once via the medium slot, emitting it twice. -/
theorem C1_counterexample_duplicate_id :
    generate_daily_quiz [cexQ1] cexProfile1 cexResp1 cexRng none = some [cexQ1, cexQ1]
    ∧ ¬ ([cexQ1, cexQ1].map (fun q => q.question_id)).Nodup := by
  constructor
  · rfl
  · decide

/-- C1 (amended): every quiz emitted by `generate_daily_quiz` (normal or
recovery path) has length at most 10, whatever profile, catalog, response
history and RNG are supplied.  (Distinctness of question ids does NOT hold,
see the counterexample.) -/
theorem C1_quiz_length_le_ten (catalog : List Question) (student : StudentProfile)
    (responses : List StudentResponse) (rng : Rng) (arg : Option ℕ) (quiz : List Question)
    (h : generate_daily_quiz catalog student responses rng arg = some quiz) :
    quiz.length ≤ 10 := by
  simp only [generate_daily_quiz] at h
  split at h
  · -- recovery path
    rw [Option.some.injEq] at h
    subst h
    exact generate_recovery_quiz_length_le _ _ _ _
  · split at h
    · -- exploration branch
      split at h
      · cases h
      · rw [Option.some.injEq] at h
        subst h
        exact List.length_take_le _ _
    · -- exploitation branch
      split at h
      · cases h
      · rw [Option.some.injEq] at h
        subst h
        exact List.length_take_le _ _

/-- Witness for C1 (amended): a concrete emitted quiz of length 2 ≤ 10. -/
theorem C1_quiz_length_witness :
    ((generate_daily_quiz [cexQ1] cexProfile1 cexResp1 cexRng none = some [cexQ1, cexQ1])
      ∧ ([cexQ1, cexQ1] : List Question).length ≤ 10) := by
  have hgen : generate_daily_quiz [cexQ1] cexProfile1 cexResp1 cexRng none
      = some [cexQ1, cexQ1] := rfl
  exact ⟨hgen, C1_quiz_length_le_ten [cexQ1] cexProfile1 cexResp1 cexRng none _ hgen⟩

end IIDP
